import Mathlib

/-!
Shallow embedding of the charging-station merge engine
(src/charging_stations/connectors/_merger.py).

Numeric station data (coordinates, distances, similarity ratios, score
weights) is embedded as rationals.  Three external collaborators of the
merge code are represented as parameters of the pipeline:

* `dist`  models `Merger.haversine_distance` applied to a neighbor's and
  the current station's coordinates (a pure function of the two records);
* `ratio` models `difflib.SequenceMatcher(None, a, b).ratio()`;
* the k-nearest-neighbor index built by `libpysal.weights.KNN` is modelled
  by `knnNeighbors` below, from the library's contract.

Row labels of the prepared geodataframe are `0 .. n-1` (the dataframe is
`reset_index(drop=True)` before shuffling); the working set is embedded as
a label-indexed `List Station`, and the random shuffle produced by
`.sample(frac=1.0)` is embedded as the explicit visit order `order` of the
orchestrator loop.
-/

inductive DataSource where
  | BNA
  | OCM
  | OSM
deriving DecidableEq, Repr

/-- One row of the working geodataframe: the flattened station record
(`_prepare_geodataframe`), including the bookkeeping flags `is_duplicate`
and `merged_attributes` added there. -/
structure Station where
  id : Nat
  data_source : DataSource
  operator : Option String
  street : Option String
  postcode : Option String
  town : Option String
  socket_type_list : Option (List String)
  lon : ℚ
  lat : ℚ
  is_duplicate : Bool
  merged_attributes : Bool
deriving DecidableEq, Repr

/-- A normalized input record as handed to `merge` / loaded by `_load_data`;
`coordinates` is the result of the wkt parse in `_prepare_geodataframe`
(`none` models an unparseable coordinate string, which is dropped). -/
structure RawStation where
  id : Nat
  data_source : DataSource
  operator : Option String
  street : Option String
  postcode : Option String
  town : Option String
  socket_type_list : Option (List String)
  coordinates : Option (ℚ × ℚ)
deriving DecidableEq, Repr

/-- A row of the candidate frame returned by `_get_duplicate_candidates`:
the working-set label (`duplicates.index` entry), the station columns, and
the `distance_meter` column. -/
structure Cand where
  idx : Nat
  st : Station
  distance_meter : ℚ
deriving DecidableEq, Repr

/-- The `score_weights` dictionary of `_determine_duplicates` / `merge`
(default `operator=0.2, address=0.1, distance=0.7`); the implementation
accepts any values. -/
structure ScoreWeights where
  operator : ℚ
  address : ℚ
  distance : ℚ
deriving DecidableEq, Repr

/-- Parameters of one merge run: the two external pure collaborators, the
neighbor lists of the spatial index, and the scoring configuration. -/
structure MergeConfig where
  dist : Station → Station → ℚ
  ratio : String → String → ℚ
  knn : Nat → List Nat
  weights : ScoreWeights
  score_threshold : ℚ
  max_distance : ℚ

/-- Insertion of a label into a list sorted by the key (helper for the
k-nearest-neighbor model). -/
def insertByKey (key : Nat → ℚ) (j : Nat) : List Nat → List Nat
  | [] => [j]
  | x :: xs => if key j ≤ key x then j :: x :: xs else x :: insertByKey key j xs

/-- Insertion sort of labels by a key (helper for the k-nearest-neighbor
model). -/
def sortByKey (key : Nat → ℚ) : List Nat → List Nat
  | [] => []
  | x :: xs => insertByKey key x (sortByKey key xs)

/-- Modelled from the spec: the spatial index (`libpysal.weights.KNN`,
built once over all station coordinates by `merge`) exposes, for each
station label, the labels of its k nearest other stations by planar
distance — the focal label itself is not among its own neighbors. -/
def knnNeighbors (coords : List (ℚ × ℚ)) (k : Nat) (i : Nat) : List Nat :=
  let ci := coords.getD i (0, 0)
  let key := fun j =>
    let cj := coords.getD j (0, 0)
    (cj.1 - ci.1) ^ 2 + (cj.2 - ci.2) ^ 2
  (sortByKey key ((List.range coords.length).filter fun j => j ≠ i)).take k

/-- Candidate selection (`_get_duplicate_candidates`): restrict the working
set to the labels in the current station's neighbor list that are not
already marked duplicate, compute the distance of each to the current
station, and keep those strictly below `maxDistance`. -/
def getDuplicateCandidates (dist : Station → Station → ℚ) (knnList : List Nat)
    (stations : List Station) (cur : Station) (maxDistance : ℚ) : List Cand :=
  let neighbors : List Cand := (List.range stations.length).filterMap fun j =>
    match stations[j]? with
    | some s =>
      if j ∈ knnList ∧ s.is_duplicate = false then
        some { idx := j, st := s, distance_meter := dist s cur }
      else none
    | none => none
  neighbors.filter fun c => c.distance_meter < maxDistance

/-- Operator similarity of `_determine_duplicates`: the SequenceMatcher
ratio of the two operator strings, `0.0` if either is `None`. -/
def operatorMatch (ratio : String → String → ℚ) (cur cand : Station) : ℚ :=
  match cur.operator, cand.operator with
  | some a, some b => ratio a b
  | _, _ => 0

/-- Address concatenation of `_determine_duplicates`:
the f-string `street + postcode + town` with `None` printed literally. -/
def addressString (s : Station) : String :=
  s.street.getD "None" ++ s.postcode.getD "None" ++ s.town.getD "None"

/-- Address similarity of `_determine_duplicates`: the SequenceMatcher
ratio of the two concatenated addresses, `0.0` if either degenerates to
the all-null placeholder. -/
def addressMatch (ratio : String → String → ℚ) (cur cand : Station) : ℚ :=
  let a := addressString cur
  let b := addressString cand
  if a ≠ "NoneNoneNone" ∧ b ≠ "NoneNoneNone" then ratio a b else 0

/-- The matching score of `_determine_duplicates`: weighted sum of operator
similarity, address similarity and linear distance decay. -/
def matchingScore (ratio : String → String → ℚ) (weights : ScoreWeights)
    (maxDistance : ℚ) (cur : Station) (c : Cand) : ℚ :=
  weights.operator * operatorMatch ratio cur c.st
    + weights.address * addressMatch ratio cur c.st
    + weights.distance * (1 - c.distance_meter / maxDistance)

/-- Duplicate determination (`_determine_duplicates`): set `is_duplicate`
to `True` on the candidate-frame rows whose matching score strictly
exceeds the threshold, and return the rows whose `is_duplicate` is set. -/
def determineDuplicates (ratio : String → String → ℚ) (weights : ScoreWeights)
    (scoreThreshold maxDistance : ℚ) (cur : Station) (cands : List Cand) : List Cand :=
  (cands.map fun c =>
    if matchingScore ratio weights maxDistance cur c > scoreThreshold then
      { c with st := { c.st with is_duplicate := true } }
    else c).filter fun c => c.st.is_duplicate

/-- The ordered source pairs of `_merge_duplicates`:
the comprehension over `["BNA", "OCM", "OSM"]` squared with `x != "BNA"`. -/
def orderedDataSourcePairs : List (DataSource × DataSource) :=
  ((([DataSource.BNA, DataSource.OCM, DataSource.OSM]).flatMap fun x =>
    ([DataSource.BNA, DataSource.OCM, DataSource.OSM]).map fun y => (x, y)).filter
      fun p => p.1 ≠ DataSource.BNA)

/-- The pair loop of `_merge_duplicates`: for each ordered source pair,
skip it unless the current station's source equals the first component and
some duplicate of the second component's source exists, and return the
first such duplicate of the first such pair. -/
def selectMergeStation (cur : Station) (dups : List Cand) : Option Cand :=
  orderedDataSourcePairs.findSome? fun p =>
    if cur.data_source = p.1 then
      (dups.filter fun d => d.st.data_source = p.2).head?
    else none

/-- Duplicate resolution (`_merge_duplicates`): a BNA-sourced current
station is left alone; otherwise the first eligible duplicate's station
columns, with `is_duplicate := False` and `merged_attributes := True`, are
written over the row at the current station's label. -/
def mergeDuplicates (stations : List Station) (curIdx : Nat) (cur : Station)
    (dups : List Cand) : List Station :=
  if cur.data_source = DataSource.BNA then stations
  else
    match selectMergeStation cur dups with
    | none => stations
    | some c =>
      stations.set curIdx { c.st with is_duplicate := false, merged_attributes := true }

/-- Row-wise form of the vectorized flag assignment in `merge`
(`stations_gdf.loc[index.isin(duplicates.index), "is_duplicate"] = True`),
walking the working set with the running label `j`. -/
def markDuplicatesFrom (dups : List Cand) (j : Nat) : List Station → List Station
  | [] => []
  | s :: rest =>
    (if dups.any fun c => c.idx == j then { s with is_duplicate := true } else s)
      :: markDuplicatesFrom dups (j + 1) rest

/-- The flag assignment of `merge`: mark every working-set row whose label
occurs in the duplicate frame's index. -/
def markDuplicates (stations : List Station) (dups : List Cand) : List Station :=
  markDuplicatesFrom dups 0 stations

/-- One iteration of the orchestrator loop in `merge` for the row with the
given label: skip marked rows, select candidates, determine duplicates,
mark them in the working set, and resolve. -/
def mergeStep (cfg : MergeConfig) (stations : List Station) (label : Nat) : List Station :=
  match stations[label]? with
  | none => stations
  | some cur =>
    if cur.is_duplicate then stations
    else
      let cands :=
        getDuplicateCandidates cfg.dist (cfg.knn label) stations cur cfg.max_distance
      if cands.isEmpty then stations
      else
        let dups :=
          determineDuplicates cfg.ratio cfg.weights cfg.score_threshold
            cfg.max_distance cur cands
        mergeDuplicates (markDuplicates stations dups) label cur dups

/-- The orchestrator loop of `merge`: visit the working-set labels in the
shuffled order. -/
def mergeLoop (cfg : MergeConfig) (stations : List Station) (order : List Nat) : List Station :=
  order.foldl (mergeStep cfg) stations

/-- The final output selection of `merge`:
`merged_stations_gdf = stations_gdf.loc[~is_duplicate]`. -/
def mergedStations (stations : List Station) : List Station :=
  stations.filter fun s => !s.is_duplicate

/-- The wkt-parse step of `_prepare_geodataframe`: a record with an
unparseable coordinate string is dropped, the rest become working-set rows
with both flags initialized to `False`. -/
def toStation? (r : RawStation) : Option Station :=
  r.coordinates.map fun p =>
    { id := r.id, data_source := r.data_source, operator := r.operator,
      street := r.street, postcode := r.postcode, town := r.town,
      socket_type_list := r.socket_type_list, lon := p.1, lat := p.2,
      is_duplicate := false, merged_attributes := false }

/-- The identifier deduplication of `_prepare_geodataframe`
(`drop_duplicates(subset=["id"])`, keeping the first occurrence), with the
set of already-seen identifiers as accumulator. -/
def dropDupByIdFrom (seen : List Nat) : List Station → List Station
  | [] => []
  | s :: rest =>
    if s.id ∈ seen then dropDupByIdFrom seen rest
    else s :: dropDupByIdFrom (s.id :: seen) rest

/-- Geodataframe preparation pipeline of `_prepare_geodataframe` after the
json flattening: parse coordinates, drop identifier duplicates, and keep
only rows with both `operator` and `socket_type_list` present. -/
def prepareStations (raw : List RawStation) : List Station :=
  (dropDupByIdFrom [] (raw.filterMap toStation?)).filter fun s =>
    s.operator.isSome && s.socket_type_list.isSome

/-- Entry of `_prepare_geodataframe`: on an empty record list the column
drop of the json normalization fails (`pd.json_normalize([])` has no
columns, so `.drop(["address.station_id", "charging.station_id"])` raises
a KeyError that propagates to the caller); otherwise the prepared rows. -/
def prepareGeodataframe (raw : List RawStation) : Except String (List Station) :=
  if raw.isEmpty then
    Except.error "KeyError: columns address.station_id and charging.station_id not found"
  else Except.ok (prepareStations raw)

/-- The `merge` entry point.  `stationsList` is the optional explicit
argument; `preloaded` is the state of `self.data_sources` before the call;
`loadResult` is the outcome of `_load_data` (its internal RuntimeError for
an empty data folder included); `order` is the shuffled visit order.  A
load failure is caught and logged, leaving the working data as it was. -/
def mergeModel (cfg : MergeConfig) (stationsList : Option (List RawStation))
    (preloaded : List RawStation) (loadResult : Except String (List RawStation))
    (order : List Nat) : Except String (List Station) :=
  match stationsList with
  | some l =>
    if l.length < 1 then Except.error "Your provided list of stations is empty!"
    else
      match prepareGeodataframe l with
      | Except.error e => Except.error e
      | Except.ok sts => Except.ok (mergedStations (mergeLoop cfg sts order))
  | none =>
    let ds :=
      if preloaded.length < 1 then
        match loadResult with
        | Except.ok d => preloaded ++ d
        | Except.error _ => preloaded
      else preloaded
    match prepareGeodataframe ds with
    | Except.error e => Except.error e
    | Except.ok sts => Except.ok (mergedStations (mergeLoop cfg sts order))

/-! Helper lemmas about the embedded operations. -/

lemma mem_insertByKey {key : Nat → ℚ} {j x : Nat} :
    ∀ {l : List Nat}, x ∈ insertByKey key j l → x = j ∨ x ∈ l
  | [], h => by simp [insertByKey] at h; exact Or.inl h
  | y :: ys, h => by
    rw [insertByKey] at h
    by_cases hle : key j ≤ key y
    · rw [if_pos hle] at h
      simpa using h
    · rw [if_neg hle] at h
      rcases List.mem_cons.mp h with h1 | h2
      · exact Or.inr (by simp [h1])
      · rcases mem_insertByKey h2 with h3 | h4
        · exact Or.inl h3
        · exact Or.inr (List.mem_cons_of_mem _ h4)

lemma mem_sortByKey {key : Nat → ℚ} {x : Nat} :
    ∀ {l : List Nat}, x ∈ sortByKey key l → x ∈ l
  | [], h => by simp [sortByKey] at h
  | y :: ys, h => by
    rw [sortByKey] at h
    rcases mem_insertByKey h with h1 | h2
    · simp [h1]
    · exact List.mem_cons_of_mem _ (mem_sortByKey h2)

lemma knnNeighbors_not_self (coords : List (ℚ × ℚ)) (k i : Nat) :
    i ∉ knnNeighbors coords k i := by
  intro h
  have h1 := mem_sortByKey (List.mem_of_mem_take h)
  have h2 := (List.mem_filter.mp h1).2
  simp at h2

lemma markDuplicatesFrom_length (dups : List Cand) :
    ∀ (l : List Station) (j : Nat), (markDuplicatesFrom dups j l).length = l.length
  | [], _ => rfl
  | _ :: rest, j => by
    rw [markDuplicatesFrom, List.length_cons, List.length_cons,
      markDuplicatesFrom_length dups rest (j + 1)]

lemma markDuplicatesFrom_getElem? (dups : List Cand) :
    ∀ (l : List Station) (j i : Nat),
      (markDuplicatesFrom dups j l)[i]? =
        (l[i]?).map fun s =>
          if dups.any fun c => c.idx == j + i then { s with is_duplicate := true } else s
  | [], j, i => by simp [markDuplicatesFrom]
  | s :: rest, j, 0 => by simp [markDuplicatesFrom]
  | s :: rest, j, (i + 1) => by
    rw [markDuplicatesFrom, List.getElem?_cons_succ, List.getElem?_cons_succ,
      markDuplicatesFrom_getElem? dups rest (j + 1) i]
    have h : j + 1 + i = j + (i + 1) := by omega
    rw [h]

lemma markDuplicates_getElem? (stations : List Station) (dups : List Cand) (i : Nat) :
    (markDuplicates stations dups)[i]? =
      (stations[i]?).map fun s =>
        if dups.any fun c => c.idx == i then { s with is_duplicate := true } else s := by
  rw [markDuplicates, markDuplicatesFrom_getElem?]
  simp

lemma markDuplicates_length (stations : List Station) (dups : List Cand) :
    (markDuplicates stations dups).length = stations.length :=
  markDuplicatesFrom_length dups stations 0

lemma mem_getDuplicateCandidates {dist : Station → Station → ℚ} {knnList : List Nat}
    {stations : List Station} {cur : Station} {maxd : ℚ} {c : Cand} :
    c ∈ getDuplicateCandidates dist knnList stations cur maxd ↔
      stations[c.idx]? = some c.st ∧ c.idx ∈ knnList ∧ c.st.is_duplicate = false ∧
        c.distance_meter = dist c.st cur ∧ c.distance_meter < maxd := by
  unfold getDuplicateCandidates
  simp only [List.mem_filter, List.mem_filterMap, List.mem_range, decide_eq_true_eq]
  constructor
  · rintro ⟨⟨j, hj, hfj⟩, hlt⟩
    cases hget : stations[j]? with
    | none => rw [hget] at hfj; simp at hfj
    | some s =>
      rw [hget] at hfj
      dsimp only at hfj
      by_cases hcond : j ∈ knnList ∧ s.is_duplicate = false
      · rw [if_pos hcond] at hfj
        rw [Option.some.injEq] at hfj
        subst hfj
        exact ⟨hget, hcond.1, hcond.2, rfl, hlt⟩
      · rw [if_neg hcond] at hfj; simp at hfj
  · rintro ⟨hget, hknn, hdup, hdist, hlt⟩
    refine ⟨⟨c.idx, ?_, ?_⟩, hlt⟩
    · exact (List.getElem?_eq_some.mp hget).1
    · rw [hget]
      dsimp only
      rw [if_pos ⟨hknn, hdup⟩, ← hdist]

lemma mem_determineDuplicates {ratio : String → String → ℚ} {weights : ScoreWeights}
    {thr maxd : ℚ} {cur : Station} {cands : List Cand} {c : Cand}
    (h : c ∈ determineDuplicates ratio weights thr maxd cur cands) :
    ∃ c₀ ∈ cands, c.idx = c₀.idx ∧ c.distance_meter = c₀.distance_meter ∧
      ((matchingScore ratio weights maxd cur c₀ > thr ∧
          c = { c₀ with st := { c₀.st with is_duplicate := true } }) ∨
        (c = c₀ ∧ c₀.st.is_duplicate = true)) := by
  unfold determineDuplicates at h
  rw [List.mem_filter] at h
  obtain ⟨hmem, hflag⟩ := h
  rw [List.mem_map] at hmem
  obtain ⟨c₀, hc₀, heq⟩ := hmem
  by_cases hs : matchingScore ratio weights maxd cur c₀ > thr
  · rw [if_pos hs] at heq
    subst heq
    exact ⟨c₀, hc₀, rfl, rfl, Or.inl ⟨hs, rfl⟩⟩
  · rw [if_neg hs] at heq
    subst heq
    exact ⟨c₀, hc₀, rfl, rfl, Or.inr ⟨rfl, hflag⟩⟩

lemma selectMergeStation_mem {cur : Station} {dups : List Cand} {c : Cand}
    (h : selectMergeStation cur dups = some c) : c ∈ dups := by
  unfold selectMergeStation at h
  obtain ⟨p, _, hfp⟩ := List.exists_of_findSome?_eq_some h
  by_cases hds : cur.data_source = p.1
  · rw [if_pos hds] at hfp
    have hmem : c ∈ (dups.filter fun d => d.st.data_source = p.2).head? :=
      Option.mem_def.mpr hfp
    exact (List.mem_filter.mp (List.mem_of_mem_head? hmem)).1
  · rw [if_neg hds] at hfp
    simp at hfp

lemma findSome?_eq_filter_head? {α β : Type} (f : α → Option β) :
    ∀ (l : List α), l.findSome? f = ((l.filter fun a => (f a).isSome).head?).bind f
  | [] => by simp
  | a :: l => by
    cases hfa : f a with
    | none =>
      rw [List.findSome?_cons, hfa, List.filter_cons]
      simp only [hfa, Option.isSome_none, Bool.false_eq_true, if_false]
      exact findSome?_eq_filter_head? f l
    | some b =>
      rw [List.findSome?_cons, hfa, List.filter_cons]
      simp [hfa]

/-- The eligibility of one ordered source pair in `_merge_duplicates`: the
current station's source equals the pair's first component and at least one
duplicate of the pair's second component's source exists. -/
def pairMatches (cur : Station) (dups : List Cand) (p : DataSource × DataSource) : Bool :=
  decide (cur.data_source = p.1) &&
    !(dups.filter fun d => d.st.data_source = p.2).isEmpty

lemma selectMergeStation_eq_filter (cur : Station) (dups : List Cand) :
    selectMergeStation cur dups =
      ((orderedDataSourcePairs.filter (pairMatches cur dups)).head?).bind fun p =>
        if cur.data_source = p.1 then
          (dups.filter fun d => d.st.data_source = p.2).head?
        else none := by
  rw [selectMergeStation, findSome?_eq_filter_head?]
  have hfun : (fun p : DataSource × DataSource =>
      (if cur.data_source = p.1 then
        (dups.filter fun d => d.st.data_source = p.2).head? else none).isSome)
      = pairMatches cur dups := by
    funext p
    by_cases hds : cur.data_source = p.1
    · rw [if_pos hds, pairMatches]
      cases hfl : (dups.filter fun d => d.st.data_source = p.2) with
      | nil => simp [hds, hfl]
      | cons x xs => simp [hds, hfl]
    · rw [if_neg hds, pairMatches]
      simp [hds]
  rw [hfun]

lemma orderedDataSourcePairs_fst_ne_bna :
    ∀ p ∈ orderedDataSourcePairs, p.1 ≠ DataSource.BNA := by decide

lemma markDuplicates_cases (stations : List Station) (D : List Cand) (i : Nat) :
    (markDuplicates stations D)[i]? = stations[i]? ∨
    ∃ s, stations[i]? = some s ∧
      (markDuplicates stations D)[i]? = some { s with is_duplicate := true } := by
  rw [markDuplicates_getElem?]
  cases hsi : stations[i]? with
  | none => left; rfl
  | some s =>
    by_cases hany : (D.any fun c => c.idx == i) = true
    · right; exact ⟨s, rfl, by simp [hany]⟩
    · left
      rw [Bool.not_eq_true] at hany
      simp [hany]

lemma mergeStep_getElem? (cfg : MergeConfig) (stations : List Station) (label i : Nat) :
    (mergeStep cfg stations label)[i]? = stations[i]? ∨
    (∃ s, stations[i]? = some s ∧
      (mergeStep cfg stations label)[i]? = some { s with is_duplicate := true }) ∨
    (i = label ∧
      (∃ s, stations[label]? = some s ∧ s.is_duplicate = false ∧
        s.data_source ≠ DataSource.BNA) ∧
      ∃ (j : Nat) (s2 : Station), stations[j]? = some s2 ∧
        (mergeStep cfg stations label)[i]? =
          some { s2 with is_duplicate := false, merged_attributes := true }) := by
  cases hget : stations[label]? with
  | none =>
    have hstep : mergeStep cfg stations label = stations := by
      simp only [mergeStep, hget]
    left; rw [hstep]
  | some cur =>
    cases hdup : cur.is_duplicate with
    | true =>
      have hstep : mergeStep cfg stations label = stations := by
        simp only [mergeStep, hget, hdup, if_true]
      left; rw [hstep]
    | false =>
      cases hempty : (getDuplicateCandidates cfg.dist (cfg.knn label) stations cur
          cfg.max_distance).isEmpty with
      | true =>
        have hstep : mergeStep cfg stations label = stations := by
          simp only [mergeStep, hget, hdup, Bool.false_eq_true, if_false, hempty, if_true]
        left; rw [hstep]
      | false =>
        have hstep : mergeStep cfg stations label =
            mergeDuplicates
              (markDuplicates stations
                (determineDuplicates cfg.ratio cfg.weights cfg.score_threshold
                  cfg.max_distance cur
                  (getDuplicateCandidates cfg.dist (cfg.knn label) stations cur
                    cfg.max_distance)))
              label cur
              (determineDuplicates cfg.ratio cfg.weights cfg.score_threshold
                cfg.max_distance cur
                (getDuplicateCandidates cfg.dist (cfg.knn label) stations cur
                  cfg.max_distance)) := by
          simp only [mergeStep, hget, hdup, Bool.false_eq_true, if_false, hempty]
        by_cases hbna : cur.data_source = DataSource.BNA
        · have hstep2 : mergeStep cfg stations label =
              markDuplicates stations
                (determineDuplicates cfg.ratio cfg.weights cfg.score_threshold
                  cfg.max_distance cur
                  (getDuplicateCandidates cfg.dist (cfg.knn label) stations cur
                    cfg.max_distance)) := by
            rw [hstep, mergeDuplicates, if_pos hbna]
          rcases markDuplicates_cases stations
              (determineDuplicates cfg.ratio cfg.weights cfg.score_threshold
                cfg.max_distance cur
                (getDuplicateCandidates cfg.dist (cfg.knn label) stations cur
                  cfg.max_distance)) i with h | ⟨s, hs, h⟩
          · left; rw [hstep2, h]
          · right; left; exact ⟨s, hs, by rw [hstep2]; exact h⟩
        · cases hsel : selectMergeStation cur
              (determineDuplicates cfg.ratio cfg.weights cfg.score_threshold
                cfg.max_distance cur
                (getDuplicateCandidates cfg.dist (cfg.knn label) stations cur
                  cfg.max_distance)) with
          | none =>
            have hstep2 : mergeStep cfg stations label =
                markDuplicates stations
                  (determineDuplicates cfg.ratio cfg.weights cfg.score_threshold
                    cfg.max_distance cur
                    (getDuplicateCandidates cfg.dist (cfg.knn label) stations cur
                      cfg.max_distance)) := by
              rw [hstep, mergeDuplicates, if_neg hbna, hsel]
            rcases markDuplicates_cases stations
                (determineDuplicates cfg.ratio cfg.weights cfg.score_threshold
                  cfg.max_distance cur
                  (getDuplicateCandidates cfg.dist (cfg.knn label) stations cur
                    cfg.max_distance)) i with h | ⟨s, hs, h⟩
            · left; rw [hstep2, h]
            · right; left; exact ⟨s, hs, by rw [hstep2]; exact h⟩
          | some c =>
            have hstep2 : mergeStep cfg stations label =
                (markDuplicates stations
                  (determineDuplicates cfg.ratio cfg.weights cfg.score_threshold
                    cfg.max_distance cur
                    (getDuplicateCandidates cfg.dist (cfg.knn label) stations cur
                      cfg.max_distance))).set label
                  { c.st with is_duplicate := false, merged_attributes := true } := by
              rw [hstep, mergeDuplicates, if_neg hbna, hsel]
            by_cases hil : i = label
            · subst hil
              right; right
              refine ⟨rfl, ⟨cur, rfl, hdup, hbna⟩, ?_⟩
              have hcD := selectMergeStation_mem hsel
              obtain ⟨c₀, hc₀, _, _, hcase⟩ := mem_determineDuplicates hcD
              obtain ⟨hrow, _, _, _, _⟩ := mem_getDuplicateCandidates.mp hc₀
              refine ⟨c₀.idx, c₀.st, hrow, ?_⟩
              have hlen : i < (markDuplicates stations
                  (determineDuplicates cfg.ratio cfg.weights cfg.score_threshold
                    cfg.max_distance cur
                    (getDuplicateCandidates cfg.dist (cfg.knn i) stations cur
                      cfg.max_distance))).length := by
                rw [markDuplicates_length]
                exact (List.getElem?_eq_some.mp hget).1
              rw [hstep2, List.getElem?_set_self hlen]
              rcases hcase with ⟨_, h1⟩ | ⟨h1, _⟩ <;> rw [h1]
            · have hne : label ≠ i := fun h => hil h.symm
              have hset : (mergeStep cfg stations label)[i]? =
                  (markDuplicates stations
                    (determineDuplicates cfg.ratio cfg.weights cfg.score_threshold
                      cfg.max_distance cur
                      (getDuplicateCandidates cfg.dist (cfg.knn label) stations cur
                        cfg.max_distance)))[i]? := by
                rw [hstep2, List.getElem?_set_ne hne]
              rcases markDuplicates_cases stations
                  (determineDuplicates cfg.ratio cfg.weights cfg.score_threshold
                    cfg.max_distance cur
                    (getDuplicateCandidates cfg.dist (cfg.knn label) stations cur
                      cfg.max_distance)) i with h | ⟨s, hs, h⟩
              · left; rw [hset, h]
              · right; left; exact ⟨s, hs, by rw [hset]; exact h⟩

lemma mergeLoop_nil (cfg : MergeConfig) (stations : List Station) :
    mergeLoop cfg stations [] = stations := rfl

lemma mergeLoop_cons (cfg : MergeConfig) (stations : List Station) (label : Nat)
    (rest : List Nat) :
    mergeLoop cfg stations (label :: rest) = mergeLoop cfg (mergeStep cfg stations label) rest := rfl

lemma mergeLoop_marked (cfg : MergeConfig) (order : List Nat) :
    ∀ (stations : List Station) (i : Nat) (s : Station),
      stations[i]? = some s → s.is_duplicate = true →
      ∃ t, (mergeLoop cfg stations order)[i]? = some t ∧ t.is_duplicate = true := by
  induction order with
  | nil => intro stations i s hs hd; exact ⟨s, hs, hd⟩
  | cons label rest ih =>
    intro stations i s hs hd
    rw [mergeLoop_cons]
    rcases mergeStep_getElem? cfg stations label i with h | ⟨s0, hs0, h⟩ |
        ⟨hi, ⟨scur, hscur, hfalse, _⟩, _⟩
    · exact ih (mergeStep cfg stations label) i s (h.trans hs) hd
    · rw [hs0] at hs
      rw [Option.some.injEq] at hs
      subst hs
      exact ih (mergeStep cfg stations label) i { s0 with is_duplicate := true } h rfl
    · subst hi
      rw [hscur] at hs
      rw [Option.some.injEq] at hs
      subst hs
      rw [hd] at hfalse
      cases hfalse

lemma mergeLoop_bna_row (cfg : MergeConfig) (order : List Nat) :
    ∀ (stations : List Station) (i : Nat) (s : Station),
      stations[i]? = some s → s.data_source = DataSource.BNA →
      ∃ b, (mergeLoop cfg stations order)[i]? = some { s with is_duplicate := b } := by
  induction order with
  | nil =>
    intro stations i s hs _
    exact ⟨s.is_duplicate, hs⟩
  | cons label rest ih =>
    intro stations i s hs hbna
    rw [mergeLoop_cons]
    rcases mergeStep_getElem? cfg stations label i with h | ⟨s0, hs0, h⟩ |
        ⟨hi, ⟨scur, hscur, _, hnotbna⟩, _⟩
    · exact ih (mergeStep cfg stations label) i s (h.trans hs) hbna
    · rw [hs0] at hs
      rw [Option.some.injEq] at hs
      subst hs
      exact ih (mergeStep cfg stations label) i { s0 with is_duplicate := true } h hbna
    · subst hi
      rw [hscur] at hs
      rw [Option.some.injEq] at hs
      subst hs
      exact absurd hbna hnotbna

lemma mergeLoop_preserves_pred (P : Station → Prop)
    (hP : ∀ (s : Station) (b₁ b₂ : Bool),
      P s → P { s with is_duplicate := b₁, merged_attributes := b₂ })
    (cfg : MergeConfig) (order : List Nat) :
    ∀ (stations : List Station),
      (∀ (i : Nat) (s : Station), stations[i]? = some s → P s) →
      ∀ (i : Nat) (s : Station), (mergeLoop cfg stations order)[i]? = some s → P s := by
  induction order with
  | nil => intro stations h i s hs; exact h i s hs
  | cons label rest ih =>
    intro stations h
    have h2 : ∀ (i : Nat) (s : Station), (mergeStep cfg stations label)[i]? = some s → P s := by
      intro i s hs
      rcases mergeStep_getElem? cfg stations label i with h1 | ⟨s0, hs0, h1⟩ |
          ⟨_, _, j, s2, hj, h1⟩
      · exact h i s (h1 ▸ hs)
      · rw [h1, Option.some.injEq] at hs
        subst hs
        exact hP s0 true s0.merged_attributes (h i s0 hs0)
      · rw [h1, Option.some.injEq] at hs
        subst hs
        exact hP s2 false true (h j s2 hj)
    intro i s hs
    rw [mergeLoop_cons] at hs
    exact ih (mergeStep cfg stations label) h2 i s hs

lemma not_mem_mergedStations {t : Station} (ht : t.is_duplicate = true)
    (l : List Station) : t ∉ mergedStations l := by
  intro h
  have h2 := (List.mem_filter.mp h).2
  rw [ht] at h2
  cases h2

lemma marked_not_candidate {stations : List Station} {i : Nat} {t : Station}
    (hs : stations[i]? = some t) (hd : t.is_duplicate = true)
    (dist : Station → Station → ℚ) (knnList : List Nat) (cur : Station) (maxd : ℚ) :
    ∀ c ∈ getDuplicateCandidates dist knnList stations cur maxd, c.idx ≠ i := by
  intro c hc hEq
  obtain ⟨hget, _, hdup, _, _⟩ := mem_getDuplicateCandidates.mp hc
  rw [hEq, hs, Option.some.injEq] at hget
  rw [← hget] at hdup
  rw [hd] at hdup
  cases hdup

/-! Claim theorems. -/

/-- C1: once a working-set row is marked `is_duplicate`, then after any
further sequence of orchestrator iterations it is still marked, it is
excluded from the final output selection, and no candidate set computed by
the candidate selector over the resulting working set contains its label. -/
theorem marked_duplicate_stays_excluded (cfg : MergeConfig) (stations : List Station)
    (order : List Nat) (i : Nat) (s : Station)
    (hs : stations[i]? = some s) (hdup : s.is_duplicate = true) :
    ∃ t, (mergeLoop cfg stations order)[i]? = some t ∧ t.is_duplicate = true ∧
      t ∉ mergedStations (mergeLoop cfg stations order) ∧
      ∀ (dist : Station → Station → ℚ) (knnList : List Nat) (cur : Station) (maxd : ℚ),
        ∀ c ∈ getDuplicateCandidates dist knnList (mergeLoop cfg stations order) cur maxd,
          c.idx ≠ i := by
  obtain ⟨t, ht, htd⟩ := mergeLoop_marked cfg order stations i s hs hdup
  exact ⟨t, ht, htd, not_mem_mergedStations htd _,
    fun dist knnList cur maxd => marked_not_candidate ht htd dist knnList cur maxd⟩

/-- C5: every candidate returned by the selector is a working-set row not
marked duplicate, carries its computed distance to the query station, and
that distance is strictly below the threshold; when nothing survives the
filters the selector returns the empty list — a value, not an error. -/
theorem candidate_selector_spec (dist : Station → Station → ℚ) (knnList : List Nat)
    (stations : List Station) (cur : Station) (maxd : ℚ) :
    (∀ c ∈ getDuplicateCandidates dist knnList stations cur maxd,
      (∃ s, stations[c.idx]? = some s ∧ c.st = s ∧ s.is_duplicate = false) ∧
      c.distance_meter = dist c.st cur ∧ c.distance_meter < maxd) ∧
    ((∀ c : Cand, c ∉ getDuplicateCandidates dist knnList stations cur maxd) →
      getDuplicateCandidates dist knnList stations cur maxd = []) := by
  constructor
  · intro c hc
    obtain ⟨hget, _, hdup, hdist, hlt⟩ := mem_getDuplicateCandidates.mp hc
    exact ⟨⟨c.st, hget, rfl, hdup⟩, hdist, hlt⟩
  · intro h
    exact List.eq_nil_iff_forall_not_mem.mpr h

/-- C10: the k-nearest-neighbor list of a station never contains the
station's own label, so the candidate selector never returns the query
station's own row and the scorer never flags a station as its own
duplicate. -/
theorem knn_self_excluded (coords : List (ℚ × ℚ)) (k i : Nat)
    (dist : Station → Station → ℚ) (stations : List Station) (cur : Station)
    (maxd thr : ℚ) (ratio : String → String → ℚ) (weights : ScoreWeights) :
    i ∉ knnNeighbors coords k i ∧
    (∀ c ∈ getDuplicateCandidates dist (knnNeighbors coords k i) stations cur maxd,
      c.idx ≠ i) ∧
    (∀ c ∈ determineDuplicates ratio weights thr maxd cur
        (getDuplicateCandidates dist (knnNeighbors coords k i) stations cur maxd),
      c.idx ≠ i) := by
  refine ⟨knnNeighbors_not_self coords k i, ?_, ?_⟩
  · intro c hc hEq
    obtain ⟨_, hknn, _, _, _⟩ := mem_getDuplicateCandidates.mp hc
    rw [hEq] at hknn
    exact knnNeighbors_not_self coords k i hknn
  · intro c hc hEq
    obtain ⟨c₀, hc₀, hidx, _, _⟩ := mem_determineDuplicates hc
    obtain ⟨_, hknn, _, _, _⟩ := mem_getDuplicateCandidates.mp hc₀
    rw [← hidx, hEq] at hknn
    exact knnNeighbors_not_self coords k i hknn

/-- C4: over candidates none of which is already flagged, the scorer flags
a candidate exactly when its weighted matching score — operator weight
times operator similarity plus address weight times address similarity
plus distance weight times the linear distance decay — strictly exceeds
the threshold, and its output is exactly the flagged subset. -/
theorem determine_duplicates_flagged_iff (ratio : String → String → ℚ)
    (weights : ScoreWeights) (thr maxd : ℚ) (cur : Station) (cands : List Cand)
    (h : ∀ c ∈ cands, c.st.is_duplicate = false) (c : Cand) :
    c ∈ determineDuplicates ratio weights thr maxd cur cands ↔
      ∃ c₀ ∈ cands,
        weights.operator * operatorMatch ratio cur c₀.st
          + weights.address * addressMatch ratio cur c₀.st
          + weights.distance * (1 - c₀.distance_meter / maxd) > thr ∧
        c = { c₀ with st := { c₀.st with is_duplicate := true } } := by
  have hms : ∀ c₀ : Cand,
      weights.operator * operatorMatch ratio cur c₀.st
        + weights.address * addressMatch ratio cur c₀.st
        + weights.distance * (1 - c₀.distance_meter / maxd)
      = matchingScore ratio weights maxd cur c₀ := fun _ => rfl
  simp only [hms]
  constructor
  · intro hc
    obtain ⟨c₀, hc₀, _, _, hcase⟩ := mem_determineDuplicates hc
    rcases hcase with ⟨hscore, h1⟩ | ⟨h1, h2⟩
    · exact ⟨c₀, hc₀, hscore, h1⟩
    · exact absurd h2 (by rw [h c₀ hc₀]; simp)
  · rintro ⟨c₀, hc₀, hscore, hceq⟩
    subst hceq
    unfold determineDuplicates
    rw [List.mem_filter]
    constructor
    · rw [List.mem_map]
      exact ⟨c₀, hc₀, by rw [if_pos hscore]⟩
    · rfl

/-- C2: for a non-BNA current station with at least one eligible ordered
source pairing, the resolver takes the first eligible pairing, overwrites
the current row with the first duplicate of that pairing's other source —
with `merged_attributes` set and `is_duplicate` cleared on the written
record — and performs no further replacement. -/
theorem merge_duplicates_first_pairing (stations : List Station) (curIdx : Nat)
    (cur : Station) (dups : List Cand)
    (hbna : cur.data_source ≠ DataSource.BNA)
    (hmatch : orderedDataSourcePairs.filter (pairMatches cur dups) ≠ []) :
    ∃ (p : DataSource × DataSource) (c : Cand),
      (orderedDataSourcePairs.filter (pairMatches cur dups)).head? = some p ∧
      cur.data_source = p.1 ∧
      (dups.filter fun d => d.st.data_source = p.2).head? = some c ∧
      mergeDuplicates stations curIdx cur dups =
        stations.set curIdx
          { c.st with is_duplicate := false, merged_attributes := true } := by
  cases hf : orderedDataSourcePairs.filter (pairMatches cur dups) with
  | nil => exact absurd hf hmatch
  | cons p rest =>
    have hp : (orderedDataSourcePairs.filter (pairMatches cur dups)).head? = some p := by
      rw [hf]; rfl
    have hpmem : p ∈ orderedDataSourcePairs.filter (pairMatches cur dups) := by
      rw [hf]; exact List.mem_cons_self p rest
    have hpm := (List.mem_filter.mp hpmem).2
    rw [pairMatches, Bool.and_eq_true] at hpm
    obtain ⟨hds, hnonempty⟩ := hpm
    rw [decide_eq_true_eq] at hds
    cases hfd : (dups.filter fun d => d.st.data_source = p.2) with
    | nil => rw [hfd] at hnonempty; simp at hnonempty
    | cons c crest =>
      have hc : (dups.filter fun d => d.st.data_source = p.2).head? = some c := by
        rw [hfd]; rfl
      refine ⟨p, c, rfl, hds, hc, ?_⟩
      rw [mergeDuplicates, if_neg hbna]
      have hsel : selectMergeStation cur dups = some c := by
        rw [selectMergeStation_eq_filter, hp, Option.some_bind, if_pos hds, hc]
      rw [hsel]

/-- C8 (amended): with a non-negative distance weight and a positive
distance threshold, the matching score is monotonically non-increasing in
`distance_meter`, all other candidate inputs equal. -/
theorem matching_score_antitone (ratio : String → String → ℚ)
    (weights : ScoreWeights) (maxd : ℚ) (cur : Station) (c₁ c₂ : Cand)
    (hw : 0 ≤ weights.distance) (hmax : 0 < maxd)
    (hst : c₁.st = c₂.st) (hd : c₁.distance_meter ≤ c₂.distance_meter) :
    matchingScore ratio weights maxd cur c₂ ≤ matchingScore ratio weights maxd cur c₁ := by
  unfold matchingScore
  rw [hst]
  have h1 : c₁.distance_meter / maxd ≤ c₂.distance_meter / maxd := by gcongr
  have h2 : weights.distance * (1 - c₂.distance_meter / maxd) ≤
      weights.distance * (1 - c₁.distance_meter / maxd) :=
    mul_le_mul_of_nonneg_left (by linarith) hw
  linarith

/-! Concrete stations and configuration for the end-to-end scenario of the
spec (two co-located stations, one BNA and one OCM) and for witnesses. -/

def scBna : Station :=
  { id := 1, data_source := DataSource.BNA, operator := some "OpA",
    street := some "Main", postcode := some "11111", town := some "Town",
    socket_type_list := some ["AC"], lon := 10, lat := 50,
    is_duplicate := false, merged_attributes := false }

def scOcm : Station :=
  { scBna with id := 2, data_source := DataSource.OCM }

def scCoords : List (ℚ × ℚ) := [(10, 50), (10, 50)]

/-- Distance collaborator for the scenario: both stations share their
coordinates, and the haversine distance of a point to itself is zero. -/
def constDist : Station → Station → ℚ := fun _ _ => 0

/-- Similarity collaborator for the scenario: the SequenceMatcher ratio of
a string with itself is 1; the scenario only compares equal strings. -/
def eqRatio : String → String → ℚ := fun a b => if a == b then 1 else 0

/-- The default score weights of `merge` / `_determine_duplicates`. -/
def defaultWeights : ScoreWeights :=
  { operator := 1/5, address := 1/10, distance := 7/10 }

/-- The scenario configuration: default threshold 0.49, default distance
cutoff 100, spatial index over the two co-located coordinates with the
default k = 40. -/
def scCfg : MergeConfig :=
  { dist := constDist, ratio := eqRatio, knn := knnNeighbors scCoords 40,
    weights := defaultWeights, score_threshold := 49/100, max_distance := 100 }

/-- C3 counterexample: in the run of the two-station scenario that
processes the OCM station first, the final output does not retain the BNA
record unmodified — the unmodified BNA record is absent, and the only
surviving record has merged_attributes = true. -/
theorem bna_scenario_order_dependent_cx :
    scBna ∉ mergedStations (mergeLoop scCfg [scBna, scOcm] [1, 0]) ∧
    ∀ s ∈ mergedStations (mergeLoop scCfg [scBna, scOcm] [1, 0]),
      s.data_source = DataSource.BNA ∧ s.merged_attributes = true := by
  with_unfolding_all decide

/-- C3 (amended): a row holding a BNA-sourced record is never overwritten
by the merge loop — all its fields except the is_duplicate flag are
preserved, merged_attributes included; in the two-station scenario the
claimed outcome holds for the processing order that visits the BNA station
first, while the opposite order leaves as sole output the BNA field set
with merged_attributes = true. -/
theorem bna_never_replaced_amended (cfg : MergeConfig) (stations : List Station)
    (order : List Nat) (i : Nat) (s : Station)
    (hs : stations[i]? = some s) (hbna : s.data_source = DataSource.BNA) :
    (∃ b, (mergeLoop cfg stations order)[i]? = some { s with is_duplicate := b }) ∧
    mergedStations (mergeLoop scCfg [scBna, scOcm] [0, 1]) = [scBna] ∧
    (mergeLoop scCfg [scBna, scOcm] [0, 1])[1]? =
      some { scOcm with is_duplicate := true } ∧
    mergedStations (mergeLoop scCfg [scBna, scOcm] [1, 0]) =
      [{ scBna with merged_attributes := true }] := by
  refine ⟨mergeLoop_bna_row cfg order stations i s hs hbna, ?_, ?_, ?_⟩ <;>
    with_unfolding_all decide

/-- Witness for the amended C3 theorem at the scenario input. -/
theorem bna_never_replaced_amended_witness :
    (([scBna, scOcm] : List Station)[0]? = some scBna ∧
      scBna.data_source = DataSource.BNA) ∧
    ((∃ b, (mergeLoop scCfg [scBna, scOcm] [0, 1])[0]? =
        some { scBna with is_duplicate := b }) ∧
      mergedStations (mergeLoop scCfg [scBna, scOcm] [0, 1]) = [scBna] ∧
      (mergeLoop scCfg [scBna, scOcm] [0, 1])[1]? =
        some { scOcm with is_duplicate := true } ∧
      mergedStations (mergeLoop scCfg [scBna, scOcm] [1, 0]) =
        [{ scBna with merged_attributes := true }]) :=
  ⟨⟨rfl, rfl⟩, bna_never_replaced_amended scCfg [scBna, scOcm] [0, 1] 0 scBna rfl rfl⟩

/-- A complete raw input record for the preparation scenarios. -/
def rawComplete : RawStation :=
  { id := 1, data_source := DataSource.BNA, operator := some "OpA",
    street := some "Main", postcode := some "11111", town := some "Town",
    socket_type_list := some ["AC"], coordinates := some (10, 50) }

/-- A raw input record with parseable coordinates but no operator. -/
def rawNoOperator : RawStation :=
  { rawComplete with id := 2, operator := none }

/-- C6 counterexample: a record whose operator is missing parses fine, yet
preparation removes it from the working set entirely — it does not remain
as an independent record there, so it cannot appear in any output. -/
theorem incomplete_record_dropped_cx :
    (toStation? rawNoOperator).isSome = true ∧
    ∀ s ∈ prepareStations [rawComplete, rawNoOperator], s.id ≠ 2 := by
  with_unfolding_all decide

/-- C6 (amended): records missing operator or socket-type-list are dropped
from the working set during geodataframe preparation, and consequently
every record of the working set and of the final output of any run carries
both fields. -/
theorem incomplete_records_never_in_output (raw : List RawStation)
    (cfg : MergeConfig) (order : List Nat) :
    (∀ s ∈ prepareStations raw,
      s.operator.isSome = true ∧ s.socket_type_list.isSome = true) ∧
    (∀ s ∈ mergedStations (mergeLoop cfg (prepareStations raw) order),
      s.operator.isSome = true ∧ s.socket_type_list.isSome = true) := by
  have hprep : ∀ s ∈ prepareStations raw,
      s.operator.isSome = true ∧ s.socket_type_list.isSome = true := by
    intro s hs
    have h2 := (List.mem_filter.mp hs).2
    rw [Bool.and_eq_true] at h2
    exact h2
  refine ⟨hprep, ?_⟩
  intro s hs
  have hsl := (List.mem_filter.mp hs).1
  obtain ⟨j, hj⟩ := List.mem_iff_getElem?.mp hsl
  refine mergeLoop_preserves_pred
    (fun t => t.operator.isSome = true ∧ t.socket_type_list.isSome = true)
    ?_ cfg order (prepareStations raw) ?_ j s hj
  · intro t b₁ b₂ ht
    exact ht
  · intro i t ht
    exact hprep t (List.getElem?_mem ht)

/-- C7: a merge call with an explicitly provided empty list raises
immediately; with no list provided and a failed load of the external
records, the failure is downgraded to an empty working set, whose
preparation then fails — and that error reaches the caller instead of
being silently absorbed. -/
theorem merge_empty_input_errors (cfg : MergeConfig) (order : List Nat)
    (preloaded : List RawStation) (loadResult : Except String (List RawStation))
    (loadErr : String) :
    mergeModel cfg (some []) preloaded loadResult order =
      Except.error "Your provided list of stations is empty!" ∧
    mergeModel cfg none [] (Except.error loadErr) order =
      Except.error
        "KeyError: columns address.station_id and charging.station_id not found" := by
  constructor <;> rfl

/-- C9: a replacement writes the winning duplicate's entire field set —
identifier and data_source included, only the two flags overridden — at
the current station's label; the winner's own row stays marked duplicate;
when the current identifier occurs on no other row, it disappears from the
output selection of the resulting working set, while the winner's
identifier survives on the written record. -/
theorem resolver_replacement_carries_winner (stations : List Station) (curIdx : Nat)
    (cur : Station) (dups : List Cand) (c : Cand) (srow : Station)
    (hcur : stations[curIdx]? = some cur)
    (hsel : selectMergeStation cur dups = some c)
    (hbna : cur.data_source ≠ DataSource.BNA)
    (hrow : stations[c.idx]? = some srow)
    (hne : c.idx ≠ curIdx)
    (hid : c.st.id = srow.id)
    (huniq : ∀ (j : Nat) (s : Station), j ≠ curIdx → stations[j]? = some s →
      s.id ≠ cur.id) :
    (mergeDuplicates (markDuplicates stations dups) curIdx cur dups)[curIdx]? =
        some { c.st with is_duplicate := false, merged_attributes := true } ∧
    (∃ t, (mergeDuplicates (markDuplicates stations dups) curIdx cur dups)[c.idx]? =
        some t ∧ t.is_duplicate = true ∧ t.id = c.st.id) ∧
    (∀ s ∈ mergedStations
        (mergeDuplicates (markDuplicates stations dups) curIdx cur dups),
      s.id ≠ cur.id) ∧
    (∃ s ∈ mergedStations
        (mergeDuplicates (markDuplicates stations dups) curIdx cur dups),
      s.id = c.st.id ∧ s.data_source = c.st.data_source) := by
  have hres : mergeDuplicates (markDuplicates stations dups) curIdx cur dups =
      (markDuplicates stations dups).set curIdx
        { c.st with is_duplicate := false, merged_attributes := true } := by
    rw [mergeDuplicates, if_neg hbna, hsel]
  have hlen : curIdx < (markDuplicates stations dups).length := by
    rw [markDuplicates_length]
    exact (List.getElem?_eq_some.mp hcur).1
  have h1 : (mergeDuplicates (markDuplicates stations dups) curIdx cur dups)[curIdx]? =
      some { c.st with is_duplicate := false, merged_attributes := true } := by
    rw [hres, List.getElem?_set_self hlen]
  have hanyc : (dups.any fun d => d.idx == c.idx) = true := by
    rw [List.any_eq_true]
    refine ⟨c, selectMergeStation_mem hsel, ?_⟩
    simp
  have h2 : (mergeDuplicates (markDuplicates stations dups) curIdx cur dups)[c.idx]? =
      some { srow with is_duplicate := true } := by
    rw [hres, List.getElem?_set_ne (fun h => hne h.symm), markDuplicates_getElem?,
      hrow]
    simp [hanyc]
  refine ⟨h1, ⟨{ srow with is_duplicate := true }, h2, rfl, hid.symm⟩, ?_, ?_⟩
  · intro s hsmem
    have hsl := (List.mem_filter.mp hsmem).1
    obtain ⟨j, hj⟩ := List.mem_iff_getElem?.mp hsl
    by_cases hjc : j = curIdx
    · subst hjc
      rw [h1, Option.some.injEq] at hj
      rw [← hj]
      have hsr : srow.id ≠ cur.id := huniq c.idx srow hne hrow
      simpa [hid] using hsr
    · rw [hres, List.getElem?_set_ne (fun h => hjc h.symm),
        markDuplicates_getElem?] at hj
      cases hsj : stations[j]? with
      | none => rw [hsj] at hj; simp at hj
      | some s0 =>
        rw [hsj] at hj
        have hnid := huniq j s0 hjc hsj
        by_cases hany : (dups.any fun d => d.idx == j) = true
        · rw [Option.map_some', if_pos hany, Option.some.injEq] at hj
          rw [← hj]
          exact hnid
        · rw [Option.map_some', if_neg hany, Option.some.injEq] at hj
          rw [← hj]
          exact hnid
  · refine ⟨{ c.st with is_duplicate := false, merged_attributes := true }, ?_, rfl, rfl⟩
    exact List.mem_filter.mpr ⟨List.getElem?_mem h1, rfl⟩

/-- An unflagged candidate at distance zero, the working-set row `scBna`. -/
def scCand : Cand := { idx := 1, st := scBna, distance_meter := 0 }

/-- The flagged duplicate-frame row for `scBna` at distance zero. -/
def scDup : Cand :=
  { idx := 1, st := { scBna with is_duplicate := true }, distance_meter := 0 }

/-- A farther candidate identical to `scCand` except for its distance. -/
def scCandFar : Cand := { scCand with distance_meter := 50 }

/-- A weight configuration the scorer accepts whose distance weight is
negative. -/
def negWeights : ScoreWeights := { operator := 0, address := 0, distance := -1 }

/-- C8 counterexample: with a negative distance weight — which the scorer
accepts unchecked — the matching score strictly increases with
distance_meter between two otherwise identical candidates. -/
theorem matching_score_not_antitone_cx :
    scCand.st = scCandFar.st ∧ scCand.distance_meter < scCandFar.distance_meter ∧
    matchingScore eqRatio negWeights 100 scOcm scCand <
      matchingScore eqRatio negWeights 100 scOcm scCandFar := by
  with_unfolding_all decide

/-- Witness for the amended C8 theorem at the default weights. -/
theorem matching_score_antitone_witness :
    ((0 : ℚ) ≤ defaultWeights.distance ∧ (0 : ℚ) < 100 ∧
      scCand.st = scCandFar.st ∧
      scCand.distance_meter ≤ scCandFar.distance_meter) ∧
    matchingScore eqRatio defaultWeights 100 scOcm scCandFar ≤
      matchingScore eqRatio defaultWeights 100 scOcm scCand :=
  ⟨⟨by with_unfolding_all decide, by with_unfolding_all decide, rfl,
      by with_unfolding_all decide⟩,
    matching_score_antitone eqRatio defaultWeights 100 scOcm scCand scCandFar
      (by with_unfolding_all decide) (by with_unfolding_all decide) rfl
      (by with_unfolding_all decide)⟩

/-- Witness for the C1 theorem: a marked singleton working set. -/
theorem marked_duplicate_stays_excluded_witness :
    (([{ scBna with is_duplicate := true }] : List Station)[0]? =
        some { scBna with is_duplicate := true } ∧
      ({ scBna with is_duplicate := true } : Station).is_duplicate = true) ∧
    (∃ t, (mergeLoop scCfg [{ scBna with is_duplicate := true }] [0])[0]? = some t ∧
      t.is_duplicate = true ∧
      t ∉ mergedStations (mergeLoop scCfg [{ scBna with is_duplicate := true }] [0]) ∧
      ∀ (dist : Station → Station → ℚ) (knnList : List Nat) (cur : Station) (maxd : ℚ),
        ∀ c ∈ getDuplicateCandidates dist knnList
            (mergeLoop scCfg [{ scBna with is_duplicate := true }] [0]) cur maxd,
          c.idx ≠ 0) :=
  ⟨⟨rfl, rfl⟩,
    marked_duplicate_stays_excluded scCfg [{ scBna with is_duplicate := true }] [0] 0
      { scBna with is_duplicate := true } rfl rfl⟩

/-- Witness for the C2 theorem: an OCM current station with one flagged
BNA duplicate. -/
theorem merge_duplicates_first_pairing_witness :
    (scOcm.data_source ≠ DataSource.BNA ∧
      orderedDataSourcePairs.filter (pairMatches scOcm [scDup]) ≠ []) ∧
    ∃ (p : DataSource × DataSource) (c : Cand),
      (orderedDataSourcePairs.filter (pairMatches scOcm [scDup])).head? = some p ∧
      scOcm.data_source = p.1 ∧
      ([scDup].filter fun d => d.st.data_source = p.2).head? = some c ∧
      mergeDuplicates [scOcm, scBna] 0 scOcm [scDup] =
        [scOcm, scBna].set 0
          { c.st with is_duplicate := false, merged_attributes := true } :=
  ⟨⟨by decide, by decide⟩,
    merge_duplicates_first_pairing [scOcm, scBna] 0 scOcm [scDup]
      (by decide) (by decide)⟩

/-- Witness for the C4 theorem: the scenario candidate is flagged at the
default threshold. -/
theorem determine_duplicates_flagged_iff_witness :
    (∀ c ∈ [scCand], c.st.is_duplicate = false) ∧
    (scDup ∈ determineDuplicates eqRatio defaultWeights (49/100) 100 scOcm [scCand] ↔
      ∃ c₀ ∈ [scCand],
        defaultWeights.operator * operatorMatch eqRatio scOcm c₀.st
          + defaultWeights.address * addressMatch eqRatio scOcm c₀.st
          + defaultWeights.distance * (1 - c₀.distance_meter / 100) > 49/100 ∧
        scDup = { c₀ with st := { c₀.st with is_duplicate := true } }) :=
  ⟨by decide,
    determine_duplicates_flagged_iff eqRatio defaultWeights (49/100) 100 scOcm
      [scCand] (by decide) scDup⟩

/-- Witness for the C5 theorem at a concrete working set and query. -/
theorem candidate_selector_spec_witness :
    (∀ c ∈ getDuplicateCandidates constDist [1] [scBna, scOcm] scBna 100,
      (∃ s, ([scBna, scOcm] : List Station)[c.idx]? = some s ∧ c.st = s ∧
        s.is_duplicate = false) ∧
      c.distance_meter = constDist c.st scBna ∧ c.distance_meter < 100) ∧
    ((∀ c : Cand, c ∉ getDuplicateCandidates constDist [1] [scBna, scOcm] scBna 100) →
      getDuplicateCandidates constDist [1] [scBna, scOcm] scBna 100 = []) :=
  candidate_selector_spec constDist [1] [scBna, scOcm] scBna 100

/-- Witness for the C10 theorem at the scenario coordinates. -/
theorem knn_self_excluded_witness :
    (0 : Nat) ∉ knnNeighbors scCoords 40 0 ∧
    (∀ c ∈ getDuplicateCandidates constDist (knnNeighbors scCoords 40 0)
        [scBna, scOcm] scBna 100, c.idx ≠ 0) ∧
    (∀ c ∈ determineDuplicates eqRatio defaultWeights (49/100) 100 scBna
        (getDuplicateCandidates constDist (knnNeighbors scCoords 40 0)
          [scBna, scOcm] scBna 100),
      c.idx ≠ 0) :=
  knn_self_excluded scCoords 40 0 constDist [scBna, scOcm] scBna 100 (49/100)
    eqRatio defaultWeights

/-- Witness for the amended C6 theorem at a concrete input. -/
theorem incomplete_records_never_in_output_witness :
    (∀ s ∈ prepareStations [rawComplete, rawNoOperator],
      s.operator.isSome = true ∧ s.socket_type_list.isSome = true) ∧
    (∀ s ∈ mergedStations
        (mergeLoop scCfg (prepareStations [rawComplete, rawNoOperator]) [0]),
      s.operator.isSome = true ∧ s.socket_type_list.isSome = true) :=
  incomplete_records_never_in_output [rawComplete, rawNoOperator] scCfg [0]

/-- Witness for the C9 theorem: the OCM row is replaced by the flagged BNA
duplicate's field set. -/
theorem resolver_replacement_carries_winner_witness :
    (selectMergeStation scOcm [scDup] = some scDup ∧
      scOcm.data_source ≠ DataSource.BNA ∧ scDup.idx ≠ 0 ∧
      scDup.st.id = scBna.id) ∧
    ((mergeDuplicates (markDuplicates [scOcm, scBna] [scDup]) 0 scOcm [scDup])[0]? =
        some { scDup.st with is_duplicate := false, merged_attributes := true } ∧
      (∃ t, (mergeDuplicates (markDuplicates [scOcm, scBna] [scDup]) 0 scOcm
          [scDup])[scDup.idx]? = some t ∧ t.is_duplicate = true ∧
        t.id = scDup.st.id) ∧
      (∀ s ∈ mergedStations
          (mergeDuplicates (markDuplicates [scOcm, scBna] [scDup]) 0 scOcm [scDup]),
        s.id ≠ scOcm.id) ∧
      (∃ s ∈ mergedStations
          (mergeDuplicates (markDuplicates [scOcm, scBna] [scDup]) 0 scOcm [scDup]),
        s.id = scDup.st.id ∧ s.data_source = scDup.st.data_source)) :=
  ⟨⟨by decide, by decide, by decide, rfl⟩,
    resolver_replacement_carries_winner [scOcm, scBna] 0 scOcm [scDup] scDup scBna
      rfl (by decide) (by decide) rfl (by decide) rfl
      (by
        intro j s hj hget
        match j with
        | 0 => exact absurd rfl hj
        | 1 =>
          simp only [List.getElem?_cons_succ, List.getElem?_cons_zero,
            Option.some.injEq] at hget
          subst hget
          decide
        | (n + 2) => simp at hget)⟩
